import Mathlib

/-!
A shallow embedding of the dataset-indexing and sampling helpers of
`pytorch3d/datasets/shapenet_base.py` (class `ShapeNetBase`): selector
resolution (`_handle_render_inputs`) and category-scoped random sampling
(`_sample_idxs_from_category`), together with proofs of their main
input/output properties.

Randomness is modelled by an explicit oracle `r : Nat → Nat` supplying the raw
random draws consumed by `torch.multinomial`; exceptions raised by the Python
code are modelled with `Except PyError`.
-/

namespace ShapeNet

/-- Errors raised by the Python code, as structured values.  The exact Python
exception class and message text of each error appear in `PyError.pyType` and
`PyError.message` below. -/
inductive PyError where
  | modelIdNotFound (modelId : String)
  | sampleNumsLengthMismatch
  | categoryNotInDataset (category : String)
  | idxOutOfBounds (maxIdx : Int)
  | keyError (key : String)
  | multinomialRuntimeError (msg : String)
  | listIndexOutOfRange
deriving DecidableEq

/-- Python exception class of each modelled error. -/
def PyError.pyType : PyError → String
  | .modelIdNotFound _ => "ValueError"
  | .sampleNumsLengthMismatch => "ValueError"
  | .categoryNotInDataset _ => "ValueError"
  | .idxOutOfBounds _ => "IndexError"
  | .keyError _ => "KeyError"
  | .multinomialRuntimeError _ => "RuntimeError"
  | .listIndexOutOfRange => "IndexError"

/-- Message text of each modelled error, as formatted by the Python source.
The `idxOutOfBounds` message keeps the source's missing space between the two
adjacent string literals. -/
def PyError.message : PyError → String
  | .modelIdNotFound m => "model_id " ++ m ++ " not found in the loaded dataset."
  | .sampleNumsLengthMismatch =>
      "categories and sample_nums needs to be of the same length or " ++
        "sample_nums needs to be of length 1."
  | .categoryNotInDataset c => "Category " ++ c ++ " is not in the loaded dataset."
  | .idxOutOfBounds maxIdx =>
      "One or more idx values are out of bounds. Indices need to be" ++
        "between 0 and " ++ toString maxIdx ++ "."
  | .keyError k => k
  | .multinomialRuntimeError m => m
  | .listIndexOutOfRange => "list index out of range"

/-- Warning emitted by `_sample_idxs_from_category` when it falls back to
sampling with replacement. -/
def replacementWarning (sample_num : Nat) (category : Option String) : String :=
  "Sample size " ++ toString sample_num ++
    " is larger than the number of objects in " ++
    (match category with
      | some c => "category " ++ c
      | none => "all categories") ++
    ", values sampled with replacement."

/-- Warning emitted by `_handle_render_inputs` when several sample sizes are
given without categories, of which only the first is used. -/
def multiSampleNumsWarning (n : Nat) : String :=
  "More than one sample sizes specified, now sampling " ++ toString n ++
    " models from the dataset."

/-- Message of the RuntimeError `torch.multinomial` raises on an empty
distribution. -/
def invalidDistributionMsg : String :=
  "invalid multinomial distribution (sum of probabilities <= 0)"

/-- Message of the RuntimeError `torch.multinomial` raises for a non-positive
number of samples. -/
def nonPositiveSampleMsg : String :=
  "cannot sample n_sample <= 0"

/-- Message of the RuntimeError `torch.multinomial` raises when asked for more
samples than categories without replacement. -/
def overdrawMsg : String :=
  "cannot sample n_sample > prob_dist.size(-1) samples without replacement"

/-- Draw `n` pairwise-distinct positions from `pool`: each step the oracle `r`
selects one remaining element, which is removed from the pool.  This models
without-replacement sampling by `torch.multinomial` over a uniform weight
vector. -/
def drawDistinct (r : Nat → Nat) : List Nat → Nat → List Nat
  | _, 0 => []
  | pool, Nat.succ n =>
      if h : 0 < pool.length then
        pool.get ⟨r n % pool.length, Nat.mod_lt _ h⟩ ::
          drawDistinct r (pool.eraseIdx (r n % pool.length)) n
      else []

/-- Model of `torch.multinomial(torch.ones(range_len), sample_num, replacement)`
followed by `.tolist()`: draw `sample_num` positions in `[0, range_len)`, with
repeats allowed exactly when `replacement = true`.  Raw randomness comes from
the oracle `r`; the error cases reproduce the conditions under which
`torch.multinomial` raises a RuntimeError. -/
def multinomial (range_len sample_num : Nat) (replacement : Bool) (r : Nat → Nat) :
    Except PyError (List Nat) :=
  if range_len = 0 then .error (.multinomialRuntimeError invalidDistributionMsg)
  else if sample_num = 0 then .error (.multinomialRuntimeError nonPositiveSampleMsg)
  else if replacement = false ∧ range_len < sample_num then
    .error (.multinomialRuntimeError overdrawMsg)
  else if replacement then .ok ((List.range sample_num).map fun k => r k % range_len)
  else .ok (drawDistinct r (List.range range_len) sample_num)

/-- State of a `ShapeNetBase` dataset: the parallel catalog lists and the
auxiliary synset maps (Python dicts are modelled as association lists). -/
structure ShapeNetBase where
  synset_ids : List String
  model_ids : List String
  synset_inv : List (String × String)
  synset_starts : List (String × Nat)
  synset_lens : List (String × Nat)
  shapenet_dir : String
  model_dir : String

/-- Python `len(self)`, which is `len(self.model_ids)`. -/
def ShapeNetBase.length (s : ShapeNetBase) : Nat := s.model_ids.length

/-- Python `d.get(k, dflt)` over an association-list dict. -/
def dictGet (d : List (String × String)) (k dflt : String) : String :=
  match d.lookup k with
  | some v => v
  | none => dflt

/-- Python `d.values()` over an association-list dict. -/
def dictValues (d : List (String × String)) : List String := d.map Prod.snd

/-- Core of `_sample_idxs_from_category` once the window `[start, start +
range_len)` is known: choose the replacement flag, draw from the external
sampler, shift by `start`, and record the fallback warning when sampling with
replacement. -/
def sampleCore (start range_len sample_num : Nat) (r : Nat → Nat)
    (category : Option String) : Except PyError (List Nat × List String) :=
  let replacement : Bool := decide (range_len < sample_num)
  match multinomial range_len sample_num replacement r with
  | .error e => .error e
  | .ok sampled =>
      .ok (sampled.map (fun x => x + start),
        if replacement then [replacementWarning sample_num category] else [])

/-- `ShapeNetBase._sample_idxs_from_category(sample_num, category)`.  The value
is the pair of the sampled index list and the list of warnings emitted; a dict
lookup of an unknown category key raises KeyError, as in Python. -/
def ShapeNetBase.sample_idxs_from_category (s : ShapeNetBase) (r : Nat → Nat)
    (sample_num : Nat) (category : Option String) :
    Except PyError (List Nat × List String) :=
  match category with
  | some c =>
      match s.synset_starts.lookup c, s.synset_lens.lookup c with
      | some start, some range_len => sampleCore start range_len sample_num r (some c)
      | none, _ => .error (.keyError c)
      | some _, none => .error (.keyError c)
  | none => sampleCore 0 s.length sample_num r none

/-- Loop of the model-id branch of `_handle_render_inputs`: for each requested
id in order, fail with ValueError if it is absent from `models`, else record
`models.index(model_id)`, the first position holding it. -/
def resolveModelIdxs (models : List String) : List String → Except PyError (List Nat)
  | [] => .ok []
  | mid :: rest =>
      if mid ∈ models then
        match resolveModelIdxs models rest with
        | .error e => .error e
        | .ok restIdxs => .ok (models.findIdx (fun x => x == mid) :: restIdxs)
      else .error (.modelIdNotFound mid)

/-- Per-iteration sample count of the category branch:
`sample_nums[i] if len(sample_nums) > 1 else sample_nums[0]`. -/
def effSampleNum (sample_nums : List Nat) (i : Nat) : Nat :=
  if 1 < sample_nums.length then sample_nums.getD i 0 else sample_nums.getD 0 0

/-- Loop of the category branch of `_handle_render_inputs`: resolve each token
through `synset_inv` (falling back to the token itself), require the resolved
key to be among `synset_inv.values()`, sample from that category, and
concatenate the sampled indices and the warnings in order.  `r` gives each
iteration `i` its own randomness stream `r i`. -/
def resolveCategoryIdxs (s : ShapeNetBase) (r : Nat → Nat → Nat)
    (sample_nums : List Nat) : Nat → List String →
    Except PyError (List Nat × List String)
  | _, [] => .ok ([], [])
  | i, cat :: rest =>
      let category := dictGet s.synset_inv cat cat
      if category ∈ dictValues s.synset_inv then
        match s.sample_idxs_from_category (r i) (effSampleNum sample_nums i)
            (some category) with
        | .error e => .error e
        | .ok (sampled, warns) =>
            match resolveCategoryIdxs s r sample_nums (i + 1) rest with
            | .error e => .error e
            | .ok (restIdxs, restWarns) =>
                .ok (sampled ++ restIdxs, warns ++ restWarns)
      else .error (.categoryNotInDataset category)

/-- Separator used by `os.path.join` on POSIX. -/
def slash : String := "/"

/-- `os.path.join(a, b)` for POSIX paths. -/
def joinOne (a b : String) : String :=
  if b.startsWith slash then b
  else if a = "" then b
  else if a.endsWith slash then a ++ b
  else a ++ slash ++ b

/-- Python `l[i]` on a list of strings with a non-negative index: IndexError
when the index is past the end. -/
def getStr (l : List String) (i : Nat) : Except PyError String :=
  if h : i < l.length then .ok (l.get ⟨i, h⟩) else .error .listIndexOutOfRange

/-- `path.join(self.shapenet_dir, self.synset_ids[idx], self.model_ids[idx],
self.model_dir)` with Python list-indexing errors. -/
def ShapeNetBase.modelPath (s : ShapeNetBase) (idx : Nat) : Except PyError String :=
  match getStr s.synset_ids idx with
  | .error e => .error e
  | .ok syn =>
      match getStr s.model_ids idx with
      | .error e => .error e
      | .ok mid => .ok (joinOne (joinOne (joinOne s.shapenet_dir syn) mid) s.model_dir)

/-- Total version of `ShapeNetBase.modelPath` for in-bounds indices. -/
def ShapeNetBase.modelPathAt (s : ShapeNetBase) (idx : Nat) : String :=
  joinOne (joinOne (joinOne s.shapenet_dir (s.synset_ids.getD idx ""))
    (s.model_ids.getD idx "")) s.model_dir

/-- Final list comprehension of `_handle_render_inputs`: map every resolved
index to its model path, raising the first indexing error. -/
def ShapeNetBase.buildPaths (s : ShapeNetBase) : List Nat → Except PyError (List String)
  | [] => .ok []
  | idx :: rest =>
      match s.modelPath idx with
      | .error e => .error e
      | .ok p =>
          match s.buildPaths rest with
          | .error e => .error e
          | .ok ps => .ok (p :: ps)

/-- `sample_nums = [1] if sample_nums is None else sample_nums`. -/
def defaultNums : Option (List Nat) → List Nat
  | none => [1]
  | some l => l

/-- `ShapeNetBase._handle_render_inputs(model_ids, categories, sample_nums,
idxs)`.  The value is the pair of the returned path list and the warnings
emitted along the way; each raised Python exception becomes `.error`.  `r`
supplies the randomness streams of the successive sampling calls. -/
def ShapeNetBase.handle_render_inputs (s : ShapeNetBase) (r : Nat → Nat → Nat)
    (model_ids : Option (List String)) (categories : Option (List String))
    (sample_nums : Option (List Nat)) (idxs : Option (List Int)) :
    Except PyError (List String × List String) :=
  if 0 < (model_ids.getD []).length then
    match resolveModelIdxs s.model_ids (model_ids.getD []) with
    | .error e => .error e
    | .ok resolved =>
        match s.buildPaths resolved with
        | .error e => .error e
        | .ok paths => .ok (paths, [])
  else if 0 < (categories.getD []).length then
    let cats := categories.getD []
    let nums := defaultNums sample_nums
    if cats.length ≠ nums.length ∧ nums.length ≠ 1 then
      .error .sampleNumsLengthMismatch
    else
      match resolveCategoryIdxs s r nums 0 cats with
      | .error e => .error e
      | .ok (resolved, warns) =>
          match s.buildPaths resolved with
          | .error e => .error e
          | .ok paths => .ok (paths, warns)
  else if 0 < (idxs.getD []).length then
    let l := idxs.getD []
    if l.any (fun idx => decide (idx < 0) || decide ((s.length : Int) ≤ idx)) then
      .error (.idxOutOfBounds ((s.length : Int) - 1))
    else
      match s.buildPaths (l.map Int.toNat) with
      | .error e => .error e
      | .ok paths => .ok (paths, [])
  else
    let nums := defaultNums sample_nums
    let warns := if 1 < nums.length then [multiSampleNumsWarning (nums.getD 0 0)] else []
    match nums with
    | [] => .error .listIndexOutOfRange
    | n0 :: _ =>
        match s.sample_idxs_from_category (r 0) n0 none with
        | .error e => .error e
        | .ok (sampled, w2) =>
            match s.buildPaths sampled with
            | .error e => .error e
            | .ok paths => .ok (paths, warns ++ w2)

/-- Concrete dataset used to instantiate the theorems: synset "03001627"
(label "chair") occupies indices `[0, 5)` and synset "04379243" (label
"table") occupies `[5, 8)`. -/
def demo : ShapeNetBase where
  synset_ids := ["03001627", "03001627", "03001627", "03001627", "03001627",
    "04379243", "04379243", "04379243"]
  model_ids := ["m0", "m1", "m2", "m3", "m4", "m5", "m6", "m7"]
  synset_inv := [("chair", "03001627"), ("table", "04379243")]
  synset_starts := [("03001627", 0), ("04379243", 5)]
  synset_lens := [("03001627", 5), ("04379243", 3)]
  shapenet_dir := "root"
  model_dir := "model.obj"

/-- Deterministic randomness oracle used in the concrete instantiations. -/
def rngDemo : Nat → Nat := fun k => 2 * k + 1

/-- Per-iteration randomness oracle used in the concrete instantiations. -/
def rngDemo2 : Nat → Nat → Nat := fun i k => i + 3 * k

/-! ### Properties of the without-replacement draw -/

lemma drawDistinct_length (r : Nat → Nat) :
    ∀ (n : Nat) (pool : List Nat), n ≤ pool.length → (drawDistinct r pool n).length = n := by
  intro n
  induction n with
  | zero => intro pool _; rfl
  | succ m ih =>
      intro pool h
      have hp : 0 < pool.length := by omega
      have hlt : r m % pool.length < pool.length := Nat.mod_lt _ hp
      have hlen : (pool.eraseIdx (r m % pool.length)).length = pool.length - 1 := by
        rw [List.length_eraseIdx, if_pos hlt]
      simp only [drawDistinct, dif_pos hp, List.length_cons]
      rw [ih _ (by omega)]

lemma drawDistinct_subset (r : Nat → Nat) :
    ∀ (n : Nat) (pool : List Nat) (x : Nat), x ∈ drawDistinct r pool n → x ∈ pool := by
  intro n
  induction n with
  | zero => intro pool x hx; simp [drawDistinct] at hx
  | succ m ih =>
      intro pool x hx
      by_cases hp : 0 < pool.length
      · simp only [drawDistinct, dif_pos hp, List.mem_cons] at hx
        rcases hx with hx | hx
        · rw [hx]; exact List.get_mem _ _ _
        · exact (List.eraseIdx_sublist pool _).subset (ih _ _ hx)
      · simp [drawDistinct, dif_neg hp] at hx

lemma get_not_mem_eraseIdx {pool : List Nat} (hnd : pool.Nodup) (j : Nat)
    (hj : j < pool.length) : pool.get ⟨j, hj⟩ ∉ pool.eraseIdx j := by
  intro hmem
  rw [List.mem_eraseIdx_iff_getElem] at hmem
  obtain ⟨i, hi, hij, heq⟩ := hmem
  have heq2 : pool[i] = pool[j] := by simpa using heq
  exact hij (hnd.getElem_inj_iff.mp heq2)

lemma drawDistinct_nodup (r : Nat → Nat) :
    ∀ (n : Nat) (pool : List Nat), pool.Nodup → (drawDistinct r pool n).Nodup := by
  intro n
  induction n with
  | zero => intro pool _; simp [drawDistinct]
  | succ m ih =>
      intro pool hnd
      by_cases hp : 0 < pool.length
      · simp only [drawDistinct, dif_pos hp]
        refine List.nodup_cons.mpr
          ⟨?_, ih _ ((List.eraseIdx_sublist pool _).nodup hnd)⟩
        intro hmem
        exact get_not_mem_eraseIdx hnd _ _ (drawDistinct_subset r m _ _ hmem)
      · simp [drawDistinct, dif_neg hp]

/-! ### Normal forms of the sampling core -/

lemma sampleCore_no_repl (start range_len n : Nat) (r : Nat → Nat)
    (cat : Option String) (h1 : 1 ≤ n) (h2 : n ≤ range_len) :
    sampleCore start range_len n r cat =
      .ok ((drawDistinct r (List.range range_len) n).map (fun p => p + start), []) := by
  have h0 : range_len ≠ 0 := by omega
  have hn0 : n ≠ 0 := by omega
  have hlt : ¬ range_len < n := by omega
  simp [sampleCore, multinomial, h0, hn0, hlt]

lemma sampleCore_repl (start range_len n : Nat) (r : Nat → Nat)
    (cat : Option String) (h1 : 1 ≤ range_len) (h2 : range_len < n) :
    sampleCore start range_len n r cat =
      .ok (((List.range n).map fun k => r k % range_len).map (fun x => x + start),
        [replacementWarning n cat]) := by
  have h0 : range_len ≠ 0 := by omega
  have hn0 : n ≠ 0 := by omega
  simp [sampleCore, multinomial, h0, hn0, h2]

lemma sample_idxs_eq_core (s : ShapeNetBase) (r : Nat → Nat) (n : Nat) (c : String)
    {start range_len : Nat}
    (hs : s.synset_starts.lookup c = some start)
    (hl : s.synset_lens.lookup c = some range_len) :
    s.sample_idxs_from_category r n (some c) = sampleCore start range_len n r (some c) := by
  simp only [ShapeNetBase.sample_idxs_from_category, hs, hl]

/-- C1: for a category window with `range_len ≥ n ≥ 1`,
`_sample_idxs_from_category` returns exactly `n` pairwise-distinct indices,
each in `[start, start + range_len)`, obtained by drawing `n` positions in
`[0, range_len)` without replacement and shifting each by `start`; no warning
is emitted. -/
theorem sample_without_replacement_distinct_in_range
    (s : ShapeNetBase) (r : Nat → Nat) (c : String) (start range_len n : Nat)
    (hs : s.synset_starts.lookup c = some start)
    (hl : s.synset_lens.lookup c = some range_len)
    (h1 : 1 ≤ n) (h2 : n ≤ range_len) :
    ∃ idxs, s.sample_idxs_from_category r n (some c) = .ok (idxs, []) ∧
      idxs = (drawDistinct r (List.range range_len) n).map (fun p => p + start) ∧
      idxs.length = n ∧ idxs.Nodup ∧
      ∀ x ∈ idxs, start ≤ x ∧ x < start + range_len := by
  refine ⟨_, ?_, rfl, ?_, ?_, ?_⟩
  · rw [sample_idxs_eq_core s r n c hs hl, sampleCore_no_repl _ _ _ _ _ h1 h2]
  · rw [List.length_map, drawDistinct_length r n _ (by simpa using h2)]
  · exact List.Nodup.map (add_left_injective start)
      (drawDistinct_nodup r n _ (List.nodup_range _))
  · intro x hx
    obtain ⟨p, hp, rfl⟩ := List.mem_map.mp hx
    have hpr := drawDistinct_subset r n _ _ hp
    rw [List.mem_range] at hpr
    omega

/-- Closed instance of `sample_without_replacement_distinct_in_range` on the
concrete dataset `demo`. -/
theorem sample_without_replacement_distinct_in_range_witness :
    demo.synset_starts.lookup "03001627" = some 0 ∧
    demo.synset_lens.lookup "03001627" = some 5 ∧
    (1 : Nat) ≤ 3 ∧ (3 : Nat) ≤ 5 ∧
    (∃ idxs, demo.sample_idxs_from_category rngDemo 3 (some "03001627") = .ok (idxs, []) ∧
      idxs = (drawDistinct rngDemo (List.range 5) 3).map (fun p => p + 0) ∧
      idxs.length = 3 ∧ idxs.Nodup ∧
      ∀ x ∈ idxs, 0 ≤ x ∧ x < 0 + 5) :=
  ⟨rfl, rfl, by decide, by decide,
    sample_without_replacement_distinct_in_range demo rngDemo "03001627" 0 5 3 rfl rfl
      (by decide) (by decide)⟩

/-- C2: for a category window with `n > range_len ≥ 1`,
`_sample_idxs_from_category` returns exactly `n` indices (repeats permitted),
each in `[start, start + range_len)`, drawn with replacement, and emits the
fallback warning; the fallback happens if and only if the requested count
exceeds the window length, and with no category the warning names "all
categories". -/
theorem sample_with_replacement_fallback_iff
    (s : ShapeNetBase) (r : Nat → Nat) (c : String) (start range_len n : Nat)
    (hs : s.synset_starts.lookup c = some start)
    (hl : s.synset_lens.lookup c = some range_len)
    (hpos : 1 ≤ range_len) (hover : range_len < n) :
    (∃ idxs, s.sample_idxs_from_category r n (some c) =
        .ok (idxs, [replacementWarning n (some c)]) ∧
      idxs = ((List.range n).map fun k => r k % range_len).map (fun x => x + start) ∧
      idxs.length = n ∧ ∀ x ∈ idxs, start ≤ x ∧ x < start + range_len) ∧
    (∀ m, 1 ≤ m →
      ((∃ l w, s.sample_idxs_from_category r m (some c) = .ok (l, w) ∧ w ≠ []) ↔
        range_len < m)) ∧
    replacementWarning n none =
      "Sample size " ++ toString n ++
        " is larger than the number of objects in " ++ "all categories" ++
        ", values sampled with replacement." := by
  refine ⟨⟨_, ?_, rfl, ?_, ?_⟩, ?_, rfl⟩
  · rw [sample_idxs_eq_core s r n c hs hl, sampleCore_repl _ _ _ _ _ hpos hover]
  · rw [List.length_map, List.length_map, List.length_range]
  · intro x hx
    obtain ⟨y, hy, rfl⟩ := List.mem_map.mp hx
    obtain ⟨k, hk, rfl⟩ := List.mem_map.mp hy
    have := Nat.mod_lt (r k) (by omega : 0 < range_len)
    omega
  · intro m hm
    constructor
    · rintro ⟨l, w, heq, hw⟩
      by_contra hnot
      push_neg at hnot
      rw [sample_idxs_eq_core s r m c hs hl,
        sampleCore_no_repl _ _ _ _ _ hm hnot] at heq
      injection heq with h1
      injection h1 with ha hb
      exact hw hb.symm
    · intro hlt
      exact ⟨_, _, by
        rw [sample_idxs_eq_core s r m c hs hl, sampleCore_repl _ _ _ _ _ hpos hlt],
        List.cons_ne_nil _ _⟩

/-- Closed instance of `sample_with_replacement_fallback_iff` on the concrete
dataset `demo`: ten models requested from the three-model table synset. -/
theorem sample_with_replacement_fallback_iff_witness :
    demo.synset_starts.lookup "04379243" = some 5 ∧
    demo.synset_lens.lookup "04379243" = some 3 ∧
    (1 : Nat) ≤ 3 ∧ (3 : Nat) < 10 ∧
    ((∃ idxs, demo.sample_idxs_from_category rngDemo 10 (some "04379243") =
        .ok (idxs, [replacementWarning 10 (some "04379243")]) ∧
      idxs = ((List.range 10).map fun k => rngDemo k % 3).map (fun x => x + 5) ∧
      idxs.length = 10 ∧ ∀ x ∈ idxs, 5 ≤ x ∧ x < 5 + 3) ∧
    (∀ m, 1 ≤ m →
      ((∃ l w, demo.sample_idxs_from_category rngDemo m (some "04379243") = .ok (l, w) ∧
          w ≠ []) ↔ 3 < m)) ∧
    replacementWarning 10 none =
      "Sample size " ++ toString 10 ++
        " is larger than the number of objects in " ++ "all categories" ++
        ", values sampled with replacement.") :=
  ⟨rfl, rfl, by decide, by decide,
    sample_with_replacement_fallback_iff demo rngDemo "04379243" 5 3 10 rfl rfl
      (by decide) (by decide)⟩

/-! ### Model-id resolution -/

lemma findIdx_mem_eq {models : List String} {mid : String} (h : mid ∈ models) :
    models.findIdx (fun x => x == mid) < models.length ∧
      models[models.findIdx (fun x => x == mid)]? = some mid := by
  have hex : ∃ x ∈ models, (fun x => x == mid) x = true := ⟨mid, h, by simp⟩
  have hlt := List.findIdx_lt_length_of_exists hex
  refine ⟨hlt, ?_⟩
  rw [List.getElem?_eq_getElem hlt]
  have hp := @List.findIdx_getElem _ (fun x => x == mid) models hlt
  simpa using hp

lemma resolveModelIdxs_ok (models : List String) :
    ∀ ids : List String, (∀ mid ∈ ids, mid ∈ models) →
      ∃ res, resolveModelIdxs models ids = .ok res ∧ res.length = ids.length ∧
        ∀ k, k < ids.length → ∃ j, res[k]? = some j ∧ j < models.length ∧
          models[j]? = ids[k]? := by
  intro ids
  induction ids with
  | nil => intro _; exact ⟨[], rfl, rfl, fun k hk => by simp at hk⟩
  | cons mid rest ih =>
      intro hall
      have hmid : mid ∈ models := hall mid (List.mem_cons_self _ _)
      obtain ⟨res, hres, hlen, hpt⟩ := ih (fun m hm => hall m (List.mem_cons_of_mem _ hm))
      refine ⟨models.findIdx (fun x => x == mid) :: res, ?_, by simp [hlen], ?_⟩
      · simp only [resolveModelIdxs, if_pos hmid, hres]
      · intro k hk
        cases k with
        | zero =>
            obtain ⟨hlt, hget⟩ := findIdx_mem_eq hmid
            exact ⟨models.findIdx (fun x => x == mid), by simp, hlt,
              by simpa using hget⟩
        | succ k2 => simpa using hpt k2 (by simpa using hk)

lemma resolveModelIdxs_error (models : List String) :
    ∀ ids : List String, (∃ mid ∈ ids, mid ∉ models) →
      ∃ mid ∈ ids, mid ∉ models ∧
        resolveModelIdxs models ids = .error (.modelIdNotFound mid) := by
  intro ids
  induction ids with
  | nil => rintro ⟨mid, hmem, _⟩; simp at hmem
  | cons m rest ih =>
      intro hex
      by_cases hm : m ∈ models
      · have hex2 : ∃ mid ∈ rest, mid ∉ models := by
          obtain ⟨mid, hmem, hnot⟩ := hex
          rcases List.mem_cons.mp hmem with rfl | hmem2
          · exact absurd hm hnot
          · exact ⟨mid, hmem2, hnot⟩
        obtain ⟨mid, hmem, hnot, herr⟩ := ih hex2
        refine ⟨mid, List.mem_cons_of_mem _ hmem, hnot, ?_⟩
        simp only [resolveModelIdxs, if_pos hm, herr]
      · exact ⟨m, List.mem_cons_self _ _, hm, by simp only [resolveModelIdxs, if_neg hm]⟩

/-- C3: resolving a non-empty list of model ids yields one catalog index per
requested id, in input order with duplicates preserved, and the catalog's
model id at each returned index equals the corresponding input id; if any
requested id is absent from the catalog, `_handle_render_inputs` raises the
model-id-not-found ValueError. -/
theorem model_id_resolution_correct (s : ShapeNetBase) (r : Nat → Nat → Nat)
    (ids : List String) (hne : ids ≠ []) :
    ((∀ mid ∈ ids, mid ∈ s.model_ids) →
      ∃ res, resolveModelIdxs s.model_ids ids = .ok res ∧ res.length = ids.length ∧
        ∀ k, k < ids.length → ∃ j, res[k]? = some j ∧ j < s.model_ids.length ∧
          s.model_ids[j]? = ids[k]?) ∧
    ((∃ mid ∈ ids, mid ∉ s.model_ids) →
      ∃ mid ∈ ids, mid ∉ s.model_ids ∧ ∀ cats nums idxs0,
        s.handle_render_inputs r (some ids) cats nums idxs0 =
          .error (.modelIdNotFound mid)) := by
  constructor
  · exact resolveModelIdxs_ok s.model_ids ids
  · intro hex
    obtain ⟨mid, hmem, hnot, herr⟩ := resolveModelIdxs_error s.model_ids ids hex
    refine ⟨mid, hmem, hnot, fun cats nums idxs0 => ?_⟩
    have hpos : 0 < ids.length := List.length_pos.mpr hne
    simp [ShapeNetBase.handle_render_inputs, hpos, herr]

/-- Closed instance of `model_id_resolution_correct` on `demo`: a duplicated
id list resolves in order, and an unknown id raises. -/
theorem model_id_resolution_correct_witness :
    (∃ res, resolveModelIdxs demo.model_ids ["m2", "m0", "m2"] = .ok res ∧
      res.length = (["m2", "m0", "m2"] : List String).length ∧
      ∀ k, k < (["m2", "m0", "m2"] : List String).length →
        ∃ j, res[k]? = some j ∧ j < demo.model_ids.length ∧
          demo.model_ids[j]? = (["m2", "m0", "m2"] : List String)[k]?) ∧
    (∃ mid ∈ (["m9"] : List String), mid ∉ demo.model_ids ∧ ∀ cats nums idxs0,
      demo.handle_render_inputs rngDemo2 (some ["m9"]) cats nums idxs0 =
        .error (.modelIdNotFound mid)) :=
  ⟨(model_id_resolution_correct demo rngDemo2 ["m2", "m0", "m2"] (by decide)).1
      (by decide),
    (model_id_resolution_correct demo rngDemo2 ["m9"] (by decide)).2 (by decide)⟩

/-! ### Path building -/

lemma modelPath_ok (s : ShapeNetBase) (i : Nat) (h1 : i < s.synset_ids.length)
    (h2 : i < s.model_ids.length) : s.modelPath i = .ok (s.modelPathAt i) := by
  simp [ShapeNetBase.modelPath, ShapeNetBase.modelPathAt, getStr, h1, h2,
    List.getD_eq_getElem]

lemma buildPaths_ok (s : ShapeNetBase) :
    ∀ idxs : List Nat, (∀ i ∈ idxs, i < s.synset_ids.length ∧ i < s.model_ids.length) →
      s.buildPaths idxs = .ok (idxs.map s.modelPathAt) := by
  intro idxs
  induction idxs with
  | nil => intro _; rfl
  | cons i rest ih =>
      intro hb
      obtain ⟨h1, h2⟩ := hb i (List.mem_cons_self _ _)
      simp [ShapeNetBase.buildPaths, modelPath_ok s i h1 h2,
        ih (fun j hj => hb j (List.mem_cons_of_mem _ hj))]

/-- C9: every resolved index list is mapped to one path per index, in order,
the path of index `i` being the `os.path.join` of the root directory, the
synset id at `i`, the model id at `i`, and the fixed per-model filename; for
explicit index lists the result does not depend on the randomness oracle at
all, hence is deterministic. -/
theorem paths_from_idxs (s : ShapeNetBase) (idxs : List Nat)
    (hb : ∀ i ∈ idxs, i < s.synset_ids.length ∧ i < s.model_ids.length) :
    s.buildPaths idxs = .ok (idxs.map s.modelPathAt) ∧
    (idxs.map s.modelPathAt).length = idxs.length ∧
    (∀ k, k < idxs.length →
      (idxs.map s.modelPathAt)[k]? = some (s.modelPathAt (idxs.getD k 0))) ∧
    (∀ i, s.modelPathAt i =
      joinOne (joinOne (joinOne s.shapenet_dir (s.synset_ids.getD i ""))
        (s.model_ids.getD i "")) s.model_dir) ∧
    (∀ (r r2 : Nat → Nat → Nat) (nums : Option (List Nat)) (l : List Int), l ≠ [] →
      s.handle_render_inputs r none none nums (some l) =
        s.handle_render_inputs r2 none none nums (some l)) := by
  refine ⟨buildPaths_ok s idxs hb, List.length_map _ _, ?_, fun i => rfl, ?_⟩
  · intro k hk
    rw [List.getElem?_map, List.getElem?_eq_getElem hk,
      List.getD_eq_getElem _ _ hk]
    rfl
  · intro r r2 nums l hne
    have hpos : 0 < l.length := List.length_pos.mpr hne
    simp [ShapeNetBase.handle_render_inputs, hpos]

/-- Closed instance of `paths_from_idxs` on `demo` with the duplicated index
list `[6, 0, 6]`. -/
theorem paths_from_idxs_witness :
    demo.buildPaths [6, 0, 6] = .ok (([6, 0, 6] : List Nat).map demo.modelPathAt) ∧
    (([6, 0, 6] : List Nat).map demo.modelPathAt).length =
      ([6, 0, 6] : List Nat).length ∧
    (∀ k, k < ([6, 0, 6] : List Nat).length →
      (([6, 0, 6] : List Nat).map demo.modelPathAt)[k]? =
        some (demo.modelPathAt (([6, 0, 6] : List Nat).getD k 0))) ∧
    (∀ i, demo.modelPathAt i =
      joinOne (joinOne (joinOne demo.shapenet_dir (demo.synset_ids.getD i ""))
        (demo.model_ids.getD i "")) demo.model_dir) ∧
    (∀ (r r2 : Nat → Nat → Nat) (nums : Option (List Nat)) (l : List Int), l ≠ [] →
      demo.handle_render_inputs r none none nums (some l) =
        demo.handle_render_inputs r2 none none nums (some l)) :=
  paths_from_idxs demo [6, 0, 6] (by decide)

/-- C6: a non-empty explicit index list makes `_handle_render_inputs` raise
the IndexError that names the valid bound `len - 1` whenever any index lies
outside `[0, len)`, and otherwise the indices are passed through unchanged, in
order, to path building. -/
theorem explicit_idxs_validation (s : ShapeNetBase) (r : Nat → Nat → Nat)
    (l : List Int) (hne : l ≠ []) :
    ((∃ idx ∈ l, idx < 0 ∨ (s.length : Int) ≤ idx) →
      s.handle_render_inputs r none none none (some l) =
        .error (.idxOutOfBounds ((s.length : Int) - 1))) ∧
    ((∀ idx ∈ l, 0 ≤ idx ∧ idx < (s.length : Int)) →
      s.model_ids.length ≤ s.synset_ids.length →
      s.handle_render_inputs r none none none (some l) =
        .ok ((l.map Int.toNat).map s.modelPathAt, [])) := by
  have hpos : 0 < l.length := List.length_pos.mpr hne
  constructor
  · rintro ⟨idx, hmem, hor⟩
    have hany : l.any (fun idx => decide (idx < 0) ||
        decide ((s.length : Int) ≤ idx)) = true := by
      refine List.any_eq_true.mpr ⟨idx, hmem, ?_⟩
      rcases hor with h | h <;> simp [h]
    simp [ShapeNetBase.handle_render_inputs, hpos, hany]
  · intro hall hpar
    have hany : l.any (fun idx => decide (idx < 0) ||
        decide ((s.length : Int) ≤ idx)) = false := by
      rw [List.any_eq_false]
      intro idx hmem
      obtain ⟨h1, h2⟩ := hall idx hmem
      simp [not_lt.mpr h1, not_le.mpr h2]
    have hbp := buildPaths_ok s (l.map Int.toNat) ?_
    · simp [ShapeNetBase.handle_render_inputs, hpos, hany, hbp]
    · intro i hi
      obtain ⟨idx, hmem, rfl⟩ := List.mem_map.mp hi
      obtain ⟨h1, h2⟩ := hall idx hmem
      have hlen : idx.toNat < s.model_ids.length := by
        have : (s.length : Int) = (s.model_ids.length : Int) := rfl
        omega
      exact ⟨by omega, hlen⟩

/-- Closed instance of `explicit_idxs_validation` on `demo` (8 models): index
`-1` raises, index `8` raises, and the valid list `[0, 7]` passes through. -/
theorem explicit_idxs_validation_witness :
    (demo.handle_render_inputs rngDemo2 none none none (some [-1]) =
      .error (.idxOutOfBounds ((demo.length : Int) - 1))) ∧
    (demo.handle_render_inputs rngDemo2 none none none (some [8]) =
      .error (.idxOutOfBounds ((demo.length : Int) - 1))) ∧
    (demo.handle_render_inputs rngDemo2 none none none (some [0, 7]) =
      .ok ((([0, 7] : List Int).map Int.toNat).map demo.modelPathAt, [])) :=
  ⟨(explicit_idxs_validation demo rngDemo2 [-1] (by decide)).1 (by decide),
    (explicit_idxs_validation demo rngDemo2 [8] (by decide)).1 (by decide),
    (explicit_idxs_validation demo rngDemo2 [0, 7] (by decide)).2 (by decide)
      (by decide)⟩

/-! ### Error shapes of the category branch -/

lemma multinomial_error_shape {range_len n : Nat} {rep : Bool} {r : Nat → Nat}
    {e : PyError} (h : multinomial range_len n rep r = .error e) :
    ∃ m, e = .multinomialRuntimeError m := by
  unfold multinomial at h
  split_ifs at h <;> cases h <;> exact ⟨_, rfl⟩

lemma sampleCore_error_shape {start range_len n : Nat} {r : Nat → Nat}
    {cat : Option String} {e : PyError}
    (h : sampleCore start range_len n r cat = .error e) :
    ∃ m, e = .multinomialRuntimeError m := by
  simp only [sampleCore] at h
  cases hm : multinomial range_len n (decide (range_len < n)) r with
  | error e2 =>
      simp only [hm] at h
      injection h with h2
      subst h2
      exact multinomial_error_shape hm
  | ok sampled => simp only [hm] at h; exact Except.noConfusion h

lemma sample_idxs_error_shape {s : ShapeNetBase} {r : Nat → Nat} {n : Nat}
    {cat : Option String} {e : PyError}
    (h : s.sample_idxs_from_category r n cat = .error e) :
    (∃ k, e = .keyError k) ∨ (∃ m, e = .multinomialRuntimeError m) := by
  cases cat with
  | none =>
      simp only [ShapeNetBase.sample_idxs_from_category] at h
      exact Or.inr (sampleCore_error_shape h)
  | some c =>
      simp only [ShapeNetBase.sample_idxs_from_category] at h
      cases hs : s.synset_starts.lookup c with
      | none =>
          simp only [hs] at h
          injection h with h2
          exact Or.inl ⟨c, h2.symm⟩
      | some start =>
          cases hl : s.synset_lens.lookup c with
          | none =>
              simp only [hs, hl] at h
              injection h with h2
              exact Or.inl ⟨c, h2.symm⟩
          | some range_len =>
              simp only [hs, hl] at h
              exact Or.inr (sampleCore_error_shape h)

lemma resolveCategoryIdxs_error_shape (s : ShapeNetBase) (r : Nat → Nat → Nat)
    (nums : List Nat) :
    ∀ (cats : List String) (i : Nat) (e : PyError),
      resolveCategoryIdxs s r nums i cats = .error e →
      (∃ c, e = .categoryNotInDataset c) ∨ (∃ k, e = .keyError k) ∨
        (∃ m, e = .multinomialRuntimeError m) := by
  intro cats
  induction cats with
  | nil => intro i e h; simp [resolveCategoryIdxs] at h
  | cons cat rest ih =>
      intro i e h
      simp only [resolveCategoryIdxs] at h
      by_cases hmem : dictGet s.synset_inv cat cat ∈ dictValues s.synset_inv
      · rw [if_pos hmem] at h
        cases hs : s.sample_idxs_from_category (r i) (effSampleNum nums i)
            (some (dictGet s.synset_inv cat cat)) with
        | error e2 =>
            simp only [hs] at h
            injection h with h2
            subst h2
            rcases sample_idxs_error_shape hs with hk | hm
            · exact Or.inr (Or.inl hk)
            · exact Or.inr (Or.inr hm)
        | ok p =>
            obtain ⟨sampled, warns⟩ := p
            simp only [hs] at h
            cases hr : resolveCategoryIdxs s r nums (i + 1) rest with
            | error e3 =>
                simp only [hr] at h
                injection h with h2
                subst h2
                exact ih (i + 1) e3 hr
            | ok q =>
                obtain ⟨a, b⟩ := q
                simp only [hr] at h
                exact Except.noConfusion h
      · rw [if_neg hmem] at h
        injection h with h2
        exact Or.inl ⟨_, h2.symm⟩

lemma getStr_error_shape {l : List String} {i : Nat} {e : PyError}
    (h : getStr l i = .error e) : e = .listIndexOutOfRange := by
  unfold getStr at h
  split_ifs at h
  cases h
  rfl

lemma modelPath_error_shape {s : ShapeNetBase} {i : Nat} {e : PyError}
    (h : s.modelPath i = .error e) : e = .listIndexOutOfRange := by
  simp only [ShapeNetBase.modelPath] at h
  cases h1 : getStr s.synset_ids i with
  | error e2 =>
      simp only [h1] at h
      injection h with h2
      subst h2
      exact getStr_error_shape h1
  | ok syn =>
      simp only [h1] at h
      cases h2 : getStr s.model_ids i with
      | error e3 =>
          simp only [h2] at h
          injection h with h3
          subst h3
          exact getStr_error_shape h2
      | ok mid => simp only [h2] at h; exact Except.noConfusion h

lemma buildPaths_error_shape (s : ShapeNetBase) :
    ∀ (idxs : List Nat) (e : PyError), s.buildPaths idxs = .error e →
      e = .listIndexOutOfRange := by
  intro idxs
  induction idxs with
  | nil => intro e h; simp [ShapeNetBase.buildPaths] at h
  | cons i rest ih =>
      intro e h
      simp only [ShapeNetBase.buildPaths] at h
      cases hm : s.modelPath i with
      | error e2 =>
          simp only [hm] at h
          injection h with h2
          subst h2
          exact modelPath_error_shape hm
      | ok p =>
          simp only [hm] at h
          cases hb : s.buildPaths rest with
          | error e3 =>
              simp only [hb] at h
              injection h with h2
              subst h2
              exact ih e3 hb
          | ok ps => simp only [hb] at h; exact Except.noConfusion h

/-- C4: with a non-empty category list, `_handle_render_inputs` raises the
length-mismatch ValueError exactly when the sample-count list length differs
from the category count and is not 1; a single count is broadcast, giving
every category the same per-category count (two categories with one count
behave as two equal counts). -/
theorem categories_sample_nums_length_check (s : ShapeNetBase) (r : Nat → Nat → Nat)
    (cats : List String) (nums : List Nat) (idxs0 : Option (List Int))
    (hne : cats ≠ []) :
    (cats.length ≠ nums.length → nums.length ≠ 1 →
      s.handle_render_inputs r none (some cats) (some nums) idxs0 =
        .error .sampleNumsLengthMismatch) ∧
    (cats.length = nums.length ∨ nums.length = 1 →
      s.handle_render_inputs r none (some cats) (some nums) idxs0 ≠
        .error .sampleNumsLengthMismatch) ∧
    (nums.length = 1 → ∀ i j, effSampleNum nums i = effSampleNum nums j) ∧
    (∀ (n0 : Nat) (c1 c2 : String),
      resolveCategoryIdxs s r [n0] 0 [c1, c2] =
        resolveCategoryIdxs s r [n0, n0] 0 [c1, c2]) := by
  have hpos : 0 < cats.length := List.length_pos.mpr hne
  refine ⟨?_, ?_, ?_, ?_⟩
  · intro h1 h2
    simp [ShapeNetBase.handle_render_inputs, hpos, defaultNums, h1, h2]
  · intro hor heq
    have hcond : ¬(cats.length ≠ nums.length ∧ nums.length ≠ 1) := by tauto
    simp only [ShapeNetBase.handle_render_inputs, Option.getD_none, Option.getD_some,
      List.length_nil, Nat.lt_irrefl, if_false, defaultNums, if_pos hpos,
      if_neg hcond] at heq
    cases hres : resolveCategoryIdxs s r nums 0 cats with
    | error e =>
        simp only [hres] at heq
        injection heq with h2
        subst h2
        rcases resolveCategoryIdxs_error_shape s r nums cats 0 _ hres with
          ⟨c, hc⟩ | ⟨k, hk⟩ | ⟨m, hm⟩
        · cases hc
        · cases hk
        · cases hm
    | ok p =>
        obtain ⟨resolved, warns⟩ := p
        simp only [hres] at heq
        cases hbp : s.buildPaths resolved with
        | error e2 =>
            simp only [hbp] at heq
            injection heq with h2
            subst h2
            cases buildPaths_error_shape s resolved _ hbp
        | ok paths => simp only [hbp] at heq; cases heq
  · intro h1 i j
    simp [effSampleNum, h1]
  · intro n0 c1 c2
    rfl

/-- Closed instance of `categories_sample_nums_length_check` on `demo`:
mismatched lengths 2 and 3 raise, and one count broadcast over two categories
equals two explicit equal counts. -/
theorem categories_sample_nums_length_check_witness :
    (demo.handle_render_inputs rngDemo2 none (some ["chair", "table"])
      (some [1, 2, 3]) none = .error .sampleNumsLengthMismatch) ∧
    (∀ i j, effSampleNum [4] i = effSampleNum [4] j) ∧
    (resolveCategoryIdxs demo rngDemo2 [4] 0 ["chair", "table"] =
      resolveCategoryIdxs demo rngDemo2 [4, 4] 0 ["chair", "table"]) :=
  ⟨(categories_sample_nums_length_check demo rngDemo2 ["chair", "table"] [1, 2, 3]
      none (by decide)).1 (by decide) (by decide),
    (categories_sample_nums_length_check demo rngDemo2 ["chair", "table"] [4]
      none (by decide)).2.2.1 (by decide),
    (categories_sample_nums_length_check demo rngDemo2 ["chair", "table"] [4]
      none (by decide)).2.2.2 4 "chair" "table"⟩

/-- C5: each category token is resolved through the `synset_inv` alias map,
falling through to the token itself when the token is not a key; when the
resolved key is not among the known synsets, the category loop stops with the
category-not-found ValueError, before any sampling for that token, whatever
the randomness oracle. -/
theorem category_alias_resolution (s : ShapeNetBase) (r : Nat → Nat → Nat)
    (nums : List Nat) (i : Nat) (cat : String) (rest : List String) :
    (∀ v, s.synset_inv.lookup cat = some v → dictGet s.synset_inv cat cat = v) ∧
    (s.synset_inv.lookup cat = none → dictGet s.synset_inv cat cat = cat) ∧
    (dictGet s.synset_inv cat cat ∉ dictValues s.synset_inv →
      resolveCategoryIdxs s r nums i (cat :: rest) =
        .error (.categoryNotInDataset (dictGet s.synset_inv cat cat))) := by
  refine ⟨?_, ?_, ?_⟩
  · intro v hv; simp [dictGet, hv]
  · intro hv; simp [dictGet, hv]
  · intro hmem
    simp only [resolveCategoryIdxs]
    rw [if_neg hmem]

/-- Closed instance of `category_alias_resolution` on `demo`: the label
"chair" resolves to its synset offset, the unknown token "sofa" falls through
to itself and then raises. -/
theorem category_alias_resolution_witness :
    dictGet demo.synset_inv "chair" "chair" = "03001627" ∧
    dictGet demo.synset_inv "sofa" "sofa" = "sofa" ∧
    resolveCategoryIdxs demo rngDemo2 [1] 0 ["sofa"] =
      .error (.categoryNotInDataset (dictGet demo.synset_inv "sofa" "sofa")) :=
  ⟨(category_alias_resolution demo rngDemo2 [1] 0 "chair" []).1 "03001627" (by decide),
    (category_alias_resolution demo rngDemo2 [1] 0 "sofa" []).2.1 (by decide),
    (category_alias_resolution demo rngDemo2 [1] 0 "sofa" []).2.2 (by decide)⟩

/-! ### Selector precedence and the default branch -/

/-- C7: exactly one selection mode of `_handle_render_inputs` is honored, with
precedence model-ids over categories over explicit indices over the
random-from-all default: a non-empty model-id list makes the categories,
sample counts and indices irrelevant; a non-empty category list makes the
indices irrelevant; a non-empty index list makes the sample counts
irrelevant; and with all three selectors absent or empty, the call reduces to
the bare sample-count default. -/
theorem selector_precedence (s : ShapeNetBase) (r : Nat → Nat → Nat) :
    (∀ (l : List String), l ≠ [] →
      ∀ cats nums idxs cats2 nums2 idxs2,
        s.handle_render_inputs r (some l) cats nums idxs =
          s.handle_render_inputs r (some l) cats2 nums2 idxs2) ∧
    (∀ (mids : Option (List String)) (lc : List String),
      mids.getD [] = [] → lc ≠ [] →
      ∀ nums idxs idxs2,
        s.handle_render_inputs r mids (some lc) nums idxs =
          s.handle_render_inputs r mids (some lc) nums idxs2) ∧
    (∀ (mids : Option (List String)) (cats : Option (List String)) (li : List Int),
      mids.getD [] = [] → cats.getD [] = [] → li ≠ [] →
      ∀ nums nums2,
        s.handle_render_inputs r mids cats nums (some li) =
          s.handle_render_inputs r mids cats nums2 (some li)) ∧
    (∀ (mids : Option (List String)) (cats : Option (List String))
        (idxs : Option (List Int)) (nums : Option (List Nat)),
      mids.getD [] = [] → cats.getD [] = [] → idxs.getD [] = [] →
      s.handle_render_inputs r mids cats nums idxs =
        s.handle_render_inputs r none none nums none) := by
  refine ⟨?_, ?_, ?_, ?_⟩
  · intro l hne cats nums idxs cats2 nums2 idxs2
    have hpos : 0 < l.length := List.length_pos.mpr hne
    simp [ShapeNetBase.handle_render_inputs, hpos]
  · intro mids lc hm hne nums idxs idxs2
    have hpos : 0 < lc.length := List.length_pos.mpr hne
    simp [ShapeNetBase.handle_render_inputs, hm, hpos]
  · intro mids cats li hm hc hne nums nums2
    have hpos : 0 < li.length := List.length_pos.mpr hne
    simp [ShapeNetBase.handle_render_inputs, hm, hc, hpos]
  · intro mids cats idxs nums hm hc hi
    simp [ShapeNetBase.handle_render_inputs, hm, hc, hi]

/-- Closed instance of `selector_precedence` on `demo`: with model ids given,
conflicting categories, counts and indices change nothing. -/
theorem selector_precedence_witness :
    demo.handle_render_inputs rngDemo2 (some ["m3"]) (some ["table"]) (some [7])
        (some [2]) =
      demo.handle_render_inputs rngDemo2 (some ["m3"]) none none none :=
  (selector_precedence demo rngDemo2).1 ["m3"] (by decide) (some ["table"])
    (some [7]) (some [2]) none none none

lemma handle_default_eq (s : ShapeNetBase) (r : Nat → Nat → Nat) (n0 : Nat)
    (rest : List Nat) (sampled : List Nat) (w : List String)
    (hs : s.sample_idxs_from_category (r 0) n0 none = .ok (sampled, w))
    (hb : s.buildPaths sampled = .ok (sampled.map s.modelPathAt)) :
    s.handle_render_inputs r none none (some (n0 :: rest)) none =
      .ok (sampled.map s.modelPathAt,
        (if 1 < (n0 :: rest).length then [multiSampleNumsWarning n0] else []) ++ w) := by
  simp [ShapeNetBase.handle_render_inputs, defaultNums, hs, hb]

/-- C8: with no model ids, categories or explicit indices, the request is a
bare sample-count request: a missing count list behaves as `[1]`; with counts
`n0 :: rest` the call samples exactly `n0` indices from the full catalog range
`[0, len)` with no category restriction, warning that only the first count is
used when more than one was given, and returns their paths. -/
theorem default_sampling_branch (s : ShapeNetBase) (r : Nat → Nat → Nat)
    (n0 : Nat) (rest : List Nat) (h0 : 1 ≤ n0) (hN : 1 ≤ s.length)
    (hpar : s.model_ids.length ≤ s.synset_ids.length) :
    s.handle_render_inputs r none none none none =
      s.handle_render_inputs r none none (some [1]) none ∧
    ∃ sampled w, s.sample_idxs_from_category (r 0) n0 none = .ok (sampled, w) ∧
      sampled.length = n0 ∧ (∀ x ∈ sampled, x < s.length) ∧
      s.handle_render_inputs r none none (some (n0 :: rest)) none =
        .ok (sampled.map s.modelPathAt,
          (if 1 < (n0 :: rest).length then [multiSampleNumsWarning n0] else []) ++ w) := by
  have hNm : s.length = s.model_ids.length := rfl
  refine ⟨rfl, ?_⟩
  have hcore : s.sample_idxs_from_category (r 0) n0 none =
      sampleCore 0 s.length n0 (r 0) none := rfl
  by_cases hle : n0 ≤ s.length
  · refine ⟨(drawDistinct (r 0) (List.range s.length) n0).map (fun p => p + 0), [],
      ?_, ?_, ?_, ?_⟩
    · rw [hcore, sampleCore_no_repl _ _ _ _ _ h0 hle]
    · rw [List.length_map, drawDistinct_length _ _ _ (by simpa using hle)]
    · intro x hx
      obtain ⟨p, hp, rfl⟩ := List.mem_map.mp hx
      have hpm := drawDistinct_subset _ _ _ _ hp
      rw [List.mem_range] at hpm
      omega
    · refine handle_default_eq s r n0 rest _ _ ?_ ?_
      · rw [hcore, sampleCore_no_repl _ _ _ _ _ h0 hle]
      · refine buildPaths_ok s _ ?_
        intro i hi
        obtain ⟨p, hp, rfl⟩ := List.mem_map.mp hi
        have hpm := drawDistinct_subset _ _ _ _ hp
        rw [List.mem_range] at hpm
        constructor <;> omega
  · push_neg at hle
    refine ⟨((List.range n0).map fun k => r 0 k % s.length).map (fun x => x + 0),
      [replacementWarning n0 none], ?_, ?_, ?_, ?_⟩
    · rw [hcore, sampleCore_repl _ _ _ _ _ hN hle]
    · rw [List.length_map, List.length_map, List.length_range]
    · intro x hx
      obtain ⟨y, hy, rfl⟩ := List.mem_map.mp hx
      obtain ⟨k, hk, rfl⟩ := List.mem_map.mp hy
      have := Nat.mod_lt (r 0 k) (by omega : 0 < s.length)
      omega
    · refine handle_default_eq s r n0 rest _ _ ?_ ?_
      · rw [hcore, sampleCore_repl _ _ _ _ _ hN hle]
      · refine buildPaths_ok s _ ?_
        intro i hi
        obtain ⟨y, hy, rfl⟩ := List.mem_map.mp hi
        obtain ⟨k, hk, rfl⟩ := List.mem_map.mp hy
        have := Nat.mod_lt (r 0 k) (by omega : 0 < s.length)
        constructor <;> omega

/-- Closed instance of `default_sampling_branch` on `demo` with counts
`[2, 5]`: two models are sampled from the whole catalog and the
only-first-count warning is emitted. -/
theorem default_sampling_branch_witness :
    (demo.handle_render_inputs rngDemo2 none none none none =
      demo.handle_render_inputs rngDemo2 none none (some [1]) none) ∧
    ∃ sampled w, demo.sample_idxs_from_category (rngDemo2 0) 2 none = .ok (sampled, w) ∧
      sampled.length = 2 ∧ (∀ x ∈ sampled, x < demo.length) ∧
      demo.handle_render_inputs rngDemo2 none none (some [2, 5]) none =
        .ok (sampled.map demo.modelPathAt,
          (if 1 < ([2, 5] : List Nat).length then [multiSampleNumsWarning 2] else []) ++ w) :=
  default_sampling_branch demo rngDemo2 2 [5] (by decide) (by decide) (by decide)

/-- C10: an empty list given for a selector behaves exactly like an absent
selector: empty model ids fall through to the categories branch, empty
categories to the explicit-indices branch, and empty indices to the
random-from-all default, so giving all three as empty lists still selects one
model and raises nothing. -/
theorem empty_selector_like_none (s : ShapeNetBase) (r : Nat → Nat → Nat) :
    (∀ cats nums idxs, s.handle_render_inputs r (some []) cats nums idxs =
      s.handle_render_inputs r none cats nums idxs) ∧
    (∀ mids nums idxs, s.handle_render_inputs r mids (some []) nums idxs =
      s.handle_render_inputs r mids none nums idxs) ∧
    (∀ mids cats nums, s.handle_render_inputs r mids cats nums (some []) =
      s.handle_render_inputs r mids cats nums none) ∧
    (1 ≤ s.length → s.model_ids.length ≤ s.synset_ids.length →
      ∃ p, s.handle_render_inputs r (some []) (some []) none (some []) =
        .ok ([p], [])) := by
  refine ⟨fun cats nums idxs => rfl, fun mids nums idxs => rfl,
    fun mids cats nums => rfl, ?_⟩
  intro hN hpar
  have hNm : s.length = s.model_ids.length := rfl
  have hcore : s.sample_idxs_from_category (r 0) 1 none =
      sampleCore 0 s.length 1 (r 0) none := rfl
  have hs : s.sample_idxs_from_category (r 0) 1 none =
      .ok ((drawDistinct (r 0) (List.range s.length) 1).map (fun p => p + 0), []) := by
    rw [hcore, sampleCore_no_repl _ _ _ _ _ (by omega) hN]
  have hdlen : (drawDistinct (r 0) (List.range s.length) 1).length = 1 :=
    drawDistinct_length _ _ _ (by simpa using hN)
  have hb : s.buildPaths ((drawDistinct (r 0) (List.range s.length) 1).map
        (fun p => p + 0)) =
      .ok (((drawDistinct (r 0) (List.range s.length) 1).map
        (fun p => p + 0)).map s.modelPathAt) := by
    refine buildPaths_ok s _ ?_
    intro i hi
    obtain ⟨p, hp, rfl⟩ := List.mem_map.mp hi
    have hpm := drawDistinct_subset _ _ _ _ hp
    rw [List.mem_range] at hpm
    constructor <;> omega
  have heq : s.handle_render_inputs r (some []) (some []) none (some []) =
      s.handle_render_inputs r none none (some ((1 : Nat) :: [])) none := rfl
  rw [heq, handle_default_eq s r 1 [] _ _ hs hb]
  obtain ⟨x, hx⟩ := List.length_eq_one.mp hdlen
  exact ⟨s.modelPathAt (x + 0), by rw [hx]; simp⟩

/-- Closed instance of `empty_selector_like_none` on `demo`: all-empty
selectors return exactly one path and no warning. -/
theorem empty_selector_like_none_witness :
    1 ≤ demo.length ∧
    ∃ p, demo.handle_render_inputs rngDemo2 (some []) (some []) none (some []) =
      .ok ([p], []) :=
  ⟨by decide, (empty_selector_like_none demo rngDemo2).2.2.2 (by decide) (by decide)⟩

end ShapeNet
